import Mathlib

/-!
Shallow embedding of `src/engine/engine_impl.go` (drone-runner-kube engine).

The Kubernetes API client is modelled as an oracle `api : Action → Option Err`
giving the outcome of each create/delete call; the embedded functions return
the trace of calls they issued together with their Go return values.
-/

namespace Engine

/-- An abstract error value (Go `error`). -/
structure Err where
  msg : String
deriving DecidableEq, Repr

/-- The object metadata used by `engine_impl.go`: `spec.PodSpec.Namespace`
and `spec.PodSpec.Name`. -/
structure PodSpecMeta where
  Namespace : String
  Name : String
deriving DecidableEq, Repr

/-- The pull-credential secret reference: `spec.PullSecret.Name`. -/
structure SecretRef where
  Name : String
deriving DecidableEq, Repr

/-- The fields of `Spec` that `engine_impl.go` reads: the pod metadata and the
optional pull secret. -/
structure Spec where
  PodSpec : PodSpecMeta
  PullSecret : Option SecretRef
deriving DecidableEq, Repr

/-- The field of `Step` that `engine_impl.go` reads: the container id. -/
structure Step where
  ID : String
deriving DecidableEq, Repr

/-- The terminal execution result (`State` in the repository). -/
structure State where
  Exited : Bool
  ExitCode : Int
  OOMKilled : Bool
deriving DecidableEq, Repr

/-- Kinds of Kubernetes objects touched by the engine. -/
inductive ObjKind where
  | secret
  | configMap
  | pod
deriving DecidableEq, Repr

/-- A Kubernetes object reference: kind, namespace and name. -/
structure Obj where
  kind : ObjKind
  ns : String
  name : String
deriving DecidableEq, Repr

/-- An API call issued by the engine: a create, or a delete carrying the
`GracePeriodSeconds` of its `DeleteOptions` (`none` = platform default). -/
inductive Action where
  | create (o : Obj)
  | delete (o : Obj) (gracePeriodSeconds : Option Int)
deriving DecidableEq, Repr

/-- Whether an action is a creation call. -/
def Action.isCreate : Action → Bool
  | .create _ => true
  | .delete _ _ => false

/-- The object an action targets. -/
def Action.obj : Action → Obj
  | .create o => o
  | .delete o _ => o

/-- Modelled from the spec: `toDockerConfigSecret` (object-descriptor
construction, outside `src/`) builds the pull-credential secret named after
`Spec.PullSecret.Name` in the workload's namespace, matching the name
`Destroy` deletes. -/
def toDockerConfigSecret (spec : Spec) : Obj :=
  ⟨.secret, spec.PodSpec.Namespace, (spec.PullSecret.map SecretRef.Name).getD ""⟩

/-- Modelled from the spec: `toSecret` (outside `src/`) builds the environment
secret named after the workload (spec §8: Setup creates secret
`build-abc123`), matching the name `Destroy` deletes. -/
def toSecret (spec : Spec) : Obj :=
  ⟨.secret, spec.PodSpec.Namespace, spec.PodSpec.Name⟩

/-- Modelled from the spec: `toPod` (outside `src/`) builds the workload pod
named after the workload, matching the name `Destroy` deletes. -/
def toPod (spec : Spec) : Obj :=
  ⟨.pod, spec.PodSpec.Namespace, spec.PodSpec.Name⟩

/-- `Kubernetes.Setup`: creates the pull-credential secret (when
`spec.PullSecret != nil`), then the environment secret, then the pod, in the
Spec's namespace; the first error aborts and is returned. Returns the trace
of API calls issued and Go's return value. -/
def Setup (api : Action → Option Err) (spec : Spec) :
    List Action × Option Err :=
  match spec.PullSecret with
  | some _ =>
    let a0 := Action.create (toDockerConfigSecret spec)
    match api a0 with
    | some err => ([a0], some err)
    | none =>
      let a1 := Action.create (toSecret spec)
      match api a1 with
      | some err => ([a0, a1], some err)
      | none =>
        let a2 := Action.create (toPod spec)
        match api a2 with
        | some err => ([a0, a1, a2], some err)
        | none => ([a0, a1, a2], none)
  | none =>
    let a1 := Action.create (toSecret spec)
    match api a1 with
    | some err => ([a1], some err)
    | none =>
      let a2 := Action.create (toPod spec)
      match api a2 with
      | some err => ([a1, a2], some err)
      | none => ([a1, a2], none)

/-- `Kubernetes.Destroy`: attempts every deletion in order (pull secret if
present, environment secret, config map, pod with zero grace period), never
returning early; each failure is appended to the accumulating multierror,
modelled as the list of collected errors (`[]` = nil result). -/
def Destroy (api : Action → Option Err) (spec : Spec) :
    List Action × List Err :=
  let step := fun (acc : List Action × List Err) (a : Action) =>
    match api a with
    | some err => (acc.1 ++ [a], acc.2 ++ [err])
    | none => (acc.1 ++ [a], acc.2)
  let acc0 : List Action × List Err :=
    match spec.PullSecret with
    | some ps =>
      step ([], [])
        (Action.delete ⟨.secret, spec.PodSpec.Namespace, ps.Name⟩ none)
    | none => ([], [])
  let acc1 := step acc0
    (Action.delete ⟨.secret, spec.PodSpec.Namespace, spec.PodSpec.Name⟩ none)
  let acc2 := step acc1
    (Action.delete ⟨.configMap, spec.PodSpec.Namespace, spec.PodSpec.Name⟩ none)
  step acc2
    (Action.delete ⟨.pod, spec.PodSpec.Namespace, spec.PodSpec.Name⟩ (some 0))

/-- The fixed deletion order of `Destroy`, as a list of delete actions. -/
def destroyOrder (spec : Spec) : List Action :=
  (match spec.PullSecret with
   | some ps =>
     [Action.delete ⟨.secret, spec.PodSpec.Namespace, ps.Name⟩ none]
   | none => []) ++
  [Action.delete ⟨.secret, spec.PodSpec.Namespace, spec.PodSpec.Name⟩ none,
   Action.delete ⟨.configMap, spec.PodSpec.Namespace, spec.PodSpec.Name⟩ none,
   Action.delete ⟨.pod, spec.PodSpec.Namespace, spec.PodSpec.Name⟩ (some 0)]

/-- Watch event types (`k8s.io/apimachinery/pkg/watch`). -/
inductive EventType where
  | Added
  | Modified
  | Deleted
  | Bookmark
  | Error
deriving DecidableEq, Repr

/-- Pod phases (`k8s.io/api/core/v1.PodPhase`). -/
inductive PodPhase where
  | Pending
  | Running
  | Succeeded
  | Failed
  | Unknown
deriving DecidableEq, Repr

/-- The runtime object carried by a watch event: either a `*v1.Pod` (with the
fields the engine reads: `ObjectMeta.Name` and `Status.Phase`) or some other
object, for which the type assertion `e.Object.(*v1.Pod)` fails. -/
inductive RObject where
  | pod (name : String) (phase : PodPhase)
  | nonPod
deriving DecidableEq, Repr

/-- A watch event (`watch.Event`); `type_` embeds the Go field `Type`, a
reserved word in Lean. -/
structure Event where
  type_ : EventType
  Object : RObject
deriving DecidableEq, Repr

/-- The readiness predicate passed by `Kubernetes.waitForReady` to `waitFor`:
accepts add/modify events whose object is a pod named like the workload and
whose phase is Running; it never returns an error. -/
def readyCondition (spec : Spec) (e : Event) : Bool × Option Err :=
  match e.type_ with
  | .Added | .Modified =>
    match e.Object with
    | .pod name phase =>
      if name ≠ spec.PodSpec.Name then (false, none)
      else if phase = PodPhase.Running then (true, none)
      else (false, none)
    | .nonPod => (false, none)
  | _ => (false, none)

/-- The initial listed snapshot (`cache.Store`): `get` looks up an object by
namespace and name, returning whether it exists or an error. -/
structure Store where
  get : String → String → Except Err Bool

/-- The precondition closure inside `Kubernetes.waitFor`: done-with-error on a
store error, done-without-error when the workload object is absent, otherwise
not done. -/
def preconditionFunc (spec : Spec) (store : Store) : Bool × Option Err :=
  match store.get spec.PodSpec.Namespace spec.PodSpec.Name with
  | .error err => (true, some err)
  | .ok exists_ =>
    if !exists_ then (true, none)
    else (false, none)

/-- The error with which the modelled watch driver reports that the stream
ended (cancellation / watch-stream failure) before the condition held. -/
def streamEndedErr : Err := ⟨"watch stream ended before condition"⟩

/-- Modelled from the spec: the event loop of
`watchtools.UntilWithSync` (client-go, outside `src/`) after a passed
precondition — evaluates each event in order against the condition, stopping
on acceptance or a condition error, and reports a stream-end error when the
events run out before the wait is satisfied (§4.2: cancellation or a
watch-stream error unblocks the wait with an error). Returns the error and
the number of events consumed. -/
def untilLoop (conditionFunc : Event → Bool × Option Err) :
    List Event → Option Err × Nat
  | [] => (some streamEndedErr, 0)
  | e :: rest =>
    match conditionFunc e with
    | (_, some err) => (some err, 1)
    | (true, none) => (none, 1)
    | (false, none) =>
      let (r, n) := untilLoop conditionFunc rest
      (r, n + 1)

/-- Modelled from the spec: `watchtools.UntilWithSync` (client-go, outside
`src/`) — list-then-watch: run the precondition against the initial listed
snapshot; a precondition error is returned at once, a satisfied precondition
returns nil at once, both without consuming any watch events; otherwise the
watch events are consumed in order (§4.2). -/
def UntilWithSync (store : Store) (events : List Event)
    (precondition : Store → Bool × Option Err)
    (conditionFunc : Event → Bool × Option Err) : Option Err × Nat :=
  match precondition store with
  | (_, some err) => (some err, 0)
  | (true, none) => (none, 0)
  | (false, none) => untilLoop conditionFunc events

/-- `Kubernetes.waitFor`: list-then-watch with the engine's precondition and
the caller-supplied condition. The store is the initial listed snapshot and
`events` the watch stream. -/
def waitFor (spec : Spec) (store : Store) (events : List Event)
    (conditionFunc : Event → Bool × Option Err) : Option Err × Nat :=
  UntilWithSync store events (preconditionFunc spec) conditionFunc

/-- `Kubernetes.waitForReady`: `waitFor` with the readiness predicate. -/
def waitForReady (spec : Spec) (_step : Step) (store : Store)
    (events : List Event) : Option Err × Nat :=
  waitFor spec store events (readyCondition spec)

/-- Side effects of `Kubernetes.start` that the claims track: the blocking
stream call and the flushes of the two line-buffered sinks. -/
inductive StartEffect where
  | stream
  | flushStdout
  | flushStderr
deriving DecidableEq, Repr

/-- The outcome of `executor.Stream`: nil, a structured
`exec.CodeExitError` carrying an exit status, or any other error. -/
inductive StreamOutcome where
  | ok
  | codeExit (status : Int)
  | failure (err : Err)
deriving DecidableEq, Repr

/-- `Kubernetes.start`: builds the two sinks, creates the SPDY executor
(`spdyErr` is the outcome of `remotecommand.NewSPDYExecutor` — on error the
function returns it at once), then streams; both sinks are flushed right
after the stream call; a nil stream outcome keeps the default
`State{Exited: true, ExitCode: 0, OOMKilled: false}`, a `CodeExitError` sets
`ExitCode` to its status, and any other error is returned with no State.
Returns the effect trace and Go's return values. -/
def start (spdyErr : Option Err) (outcome : StreamOutcome) :
    List StartEffect × (Option State × Option Err) :=
  match spdyErr with
  | some err => ([], (none, some err))
  | none =>
    let effects := [StartEffect.stream, StartEffect.flushStdout,
      StartEffect.flushStderr]
    match outcome with
    | .ok =>
      (effects, (some { Exited := true, ExitCode := 0, OOMKilled := false },
        none))
    | .codeExit status =>
      (effects,
        (some { Exited := true, ExitCode := status, OOMKilled := false },
          none))
    | .failure err => (effects, (none, some err))

/-- `Kubernetes.Run`: waits for readiness (`waitErr` is `waitForReady`'s
result); a non-nil wait error is returned with a nil State and `start` is
never invoked; otherwise returns `start`'s result. -/
def Run (waitErr : Option Err) (spdyErr : Option Err)
    (outcome : StreamOutcome) :
    List StartEffect × (Option State × Option Err) :=
  match waitErr with
  | some err => ([], (none, some err))
  | none => start spdyErr outcome

/-- Declarative stop-at-first-error semantics: issue the calls in the given
order; the first failing call's error is returned immediately and no further
call is issued. -/
def attemptInOrder (api : Action → Option Err) :
    List Action → List Action × Option Err
  | [] => ([], none)
  | a :: rest =>
    match api a with
    | some err => ([a], some err)
    | none =>
      let (tr, res) := attemptInOrder api rest
      (a :: tr, res)

/-- The objects targeted by the creation calls of a trace. -/
def createdObjs (tr : List Action) : List Obj :=
  tr.filterMap fun a =>
    match a with
    | .create o => some o
    | .delete _ _ => none

/-- The objects targeted by the deletion calls of a trace. -/
def deletedObjs (tr : List Action) : List Obj :=
  tr.filterMap fun a =>
    match a with
    | .create _ => none
    | .delete o _ => some o

/-- An API oracle on which every call succeeds. -/
def apiOk : Action → Option Err := fun _ => none

/-- A concrete Spec with a pull secret, for witnesses. -/
def specPull : Spec := ⟨⟨"drone", "build-abc123"⟩, some ⟨"pullsec"⟩⟩

/-- A concrete Spec without a pull secret, for witnesses. -/
def specPlain : Spec := ⟨⟨"drone", "build-abc123"⟩, none⟩

/-- C1: Setup creates, in order, the pull-credential secret (only when
`Spec.PullSecret` is non-nil), the environment secret, and the workload pod;
a failing creation call returns its error immediately with no further
creations; every call Setup issues is a creation (it deletes nothing) in
Spec's namespace. -/
theorem setup_creates_in_order_and_aborts (spec : Spec)
    (api : Action → Option Err) :
    Setup api spec =
      attemptInOrder api
        ((match spec.PullSecret with
          | some _ => [Action.create (toDockerConfigSecret spec)]
          | none => []) ++
          [Action.create (toSecret spec), Action.create (toPod spec)]) ∧
    ∀ a ∈ (Setup api spec).1,
      a.isCreate = true ∧ a.obj.ns = spec.PodSpec.Namespace := by
  constructor
  · cases hps : spec.PullSecret with
    | none =>
      cases h1 : api (Action.create (toSecret spec)) <;>
        cases h2 : api (Action.create (toPod spec)) <;>
          simp [Setup, attemptInOrder, hps, h1, h2]
    | some ps =>
      cases h0 : api (Action.create (toDockerConfigSecret spec)) <;>
        cases h1 : api (Action.create (toSecret spec)) <;>
          cases h2 : api (Action.create (toPod spec)) <;>
            simp [Setup, attemptInOrder, hps, h0, h1, h2]
  · cases hps : spec.PullSecret with
    | none =>
      cases h1 : api (Action.create (toSecret spec)) <;>
        cases h2 : api (Action.create (toPod spec)) <;>
          (simp only [Setup, hps, h1, h2];
            simp [Action.isCreate, Action.obj, toSecret, toPod])
    | some ps =>
      cases h0 : api (Action.create (toDockerConfigSecret spec)) <;>
        cases h1 : api (Action.create (toSecret spec)) <;>
          cases h2 : api (Action.create (toPod spec)) <;>
            (simp only [Setup, hps, h0, h1, h2];
              simp [Action.isCreate, Action.obj, toSecret, toPod,
                toDockerConfigSecret])

/-- Witness for C1 at a concrete Spec with a pull secret and an
all-succeeding API. -/
theorem setup_creates_in_order_and_aborts_witness :
    (Setup apiOk specPull =
      attemptInOrder apiOk
        ((match specPull.PullSecret with
          | some _ => [Action.create (toDockerConfigSecret specPull)]
          | none => []) ++
          [Action.create (toSecret specPull),
           Action.create (toPod specPull)])) ∧
    ((Action.create (toPod specPull)).isCreate = true ∧
      (Action.create (toPod specPull)).obj.ns =
        specPull.PodSpec.Namespace) :=
  ⟨(setup_creates_in_order_and_aborts specPull apiOk).1,
    (setup_creates_in_order_and_aborts specPull apiOk).2
      (Action.create (toPod specPull)) (by decide)⟩

/-- C2: Destroy attempts every deletion, never returning early (its trace is
always the full fixed deletion order), and its result is non-nil iff at
least one individual deletion call returned an error. -/
theorem destroy_attempts_all_error_iff (spec : Spec)
    (api : Action → Option Err) :
    (Destroy api spec).1 = destroyOrder spec ∧
    ((Destroy api spec).2 ≠ [] ↔
      ∃ a ∈ destroyOrder spec, (api a).isSome) := by
  cases hps : spec.PullSecret with
  | none =>
    cases h1 : api (Action.delete
        ⟨.secret, spec.PodSpec.Namespace, spec.PodSpec.Name⟩ none) <;>
      cases h2 : api (Action.delete
          ⟨.configMap, spec.PodSpec.Namespace, spec.PodSpec.Name⟩ none) <;>
        cases h3 : api (Action.delete
            ⟨.pod, spec.PodSpec.Namespace, spec.PodSpec.Name⟩ (some 0)) <;>
          simp [Destroy, destroyOrder, hps, h1, h2, h3]
  | some ps =>
    cases h0 : api (Action.delete
        ⟨.secret, spec.PodSpec.Namespace, ps.Name⟩ none) <;>
      cases h1 : api (Action.delete
          ⟨.secret, spec.PodSpec.Namespace, spec.PodSpec.Name⟩ none) <;>
        cases h2 : api (Action.delete
            ⟨.configMap, spec.PodSpec.Namespace, spec.PodSpec.Name⟩
            none) <;>
          cases h3 : api (Action.delete
              ⟨.pod, spec.PodSpec.Namespace, spec.PodSpec.Name⟩
              (some 0)) <;>
            simp [Destroy, destroyOrder, hps, h0, h1, h2, h3]

/-- C3: Destroy deletes, in order: pull-credential secret (only when
`Spec.PullSecret` is non-nil), environment secret, config map, workload pod;
the pod deletion carries `GracePeriodSeconds: 0`, the others the platform
default. -/
theorem destroy_fixed_order_and_grace (spec : Spec)
    (api : Action → Option Err) :
    (Destroy api spec).1 =
      (match spec.PullSecret with
       | some ps =>
         [Action.delete ⟨.secret, spec.PodSpec.Namespace, ps.Name⟩ none]
       | none => []) ++
      [Action.delete
        ⟨.secret, spec.PodSpec.Namespace, spec.PodSpec.Name⟩ none,
       Action.delete
        ⟨.configMap, spec.PodSpec.Namespace, spec.PodSpec.Name⟩ none,
       Action.delete
        ⟨.pod, spec.PodSpec.Namespace, spec.PodSpec.Name⟩ (some 0)] := by
  cases hps : spec.PullSecret with
  | none =>
    cases h1 : api (Action.delete
        ⟨.secret, spec.PodSpec.Namespace, spec.PodSpec.Name⟩ none) <;>
      cases h2 : api (Action.delete
          ⟨.configMap, spec.PodSpec.Namespace, spec.PodSpec.Name⟩ none) <;>
        cases h3 : api (Action.delete
            ⟨.pod, spec.PodSpec.Namespace, spec.PodSpec.Name⟩ (some 0)) <;>
          simp [Destroy, hps, h1, h2, h3]
  | some ps =>
    cases h0 : api (Action.delete
        ⟨.secret, spec.PodSpec.Namespace, ps.Name⟩ none) <;>
      cases h1 : api (Action.delete
          ⟨.secret, spec.PodSpec.Namespace, spec.PodSpec.Name⟩ none) <;>
        cases h2 : api (Action.delete
            ⟨.configMap, spec.PodSpec.Namespace, spec.PodSpec.Name⟩
            none) <;>
          cases h3 : api (Action.delete
              ⟨.pod, spec.PodSpec.Namespace, spec.PodSpec.Name⟩
              (some 0)) <;>
            simp [Destroy, hps, h0, h1, h2, h3]

/-- C4: after a successful Setup, a Destroy whose deletion calls all succeed
returns nil, deletes every object Setup created (so no provisioned object
remains), and the only object it deletes that Setup never created is the
config map named after the workload. -/
theorem setup_destroy_symmetry (spec : Spec)
    (api₁ api₂ : Action → Option Err)
    (hs : (Setup api₁ spec).2 = none)
    (hd : ∀ a, api₂ a = none) :
    (Destroy api₂ spec).2 = [] ∧
    (∀ o ∈ createdObjs (Setup api₁ spec).1,
      o ∈ deletedObjs (Destroy api₂ spec).1) ∧
    (∀ o ∈ deletedObjs (Destroy api₂ spec).1,
      o ∈ createdObjs (Setup api₁ spec).1 ∨
        o = ⟨ObjKind.configMap, spec.PodSpec.Namespace,
          spec.PodSpec.Name⟩) := by
  cases hps : spec.PullSecret with
  | none =>
    cases h1 : api₁ (Action.create (toSecret spec)) <;>
      cases h2 : api₁ (Action.create (toPod spec)) <;>
        simp_all [Setup, Destroy, createdObjs, deletedObjs, toSecret,
          toPod, toDockerConfigSecret]
  | some ps =>
    cases h0 : api₁ (Action.create (toDockerConfigSecret spec)) <;>
      cases h1 : api₁ (Action.create (toSecret spec)) <;>
        cases h2 : api₁ (Action.create (toPod spec)) <;>
          simp_all [Setup, Destroy, createdObjs, deletedObjs, toSecret,
            toPod, toDockerConfigSecret]

/-- Witness for C4 at a concrete Spec with a pull secret and an
all-succeeding API. -/
theorem setup_destroy_symmetry_witness :
    ((Setup apiOk specPull).2 = none) ∧
    ((Destroy apiOk specPull).2 = [] ∧
      (∀ o ∈ createdObjs (Setup apiOk specPull).1,
        o ∈ deletedObjs (Destroy apiOk specPull).1) ∧
      (∀ o ∈ deletedObjs (Destroy apiOk specPull).1,
        o ∈ createdObjs (Setup apiOk specPull).1 ∨
          o = ⟨ObjKind.configMap, specPull.PodSpec.Namespace,
            specPull.PodSpec.Name⟩)) :=
  ⟨rfl, setup_destroy_symmetry specPull apiOk apiOk rfl (fun _ => rfl)⟩

/-- C5: the readiness predicate never returns an error (so on rejection the
wait continues), and it accepts an event iff the event type is Added or
Modified and the event's object is a pod whose name equals the workload name
and whose phase is Running; everything else — Deleted events, non-pod
objects, name mismatches, Failed/Succeeded phases — is rejected. -/
theorem ready_condition_accepts_iff (spec : Spec) (e : Event) :
    (readyCondition spec e).2 = none ∧
    ((readyCondition spec e).1 = true ↔
      (e.type_ = EventType.Added ∨ e.type_ = EventType.Modified) ∧
      e.Object = RObject.pod spec.PodSpec.Name PodPhase.Running) := by
  obtain ⟨t, o⟩ := e
  cases t <;> cases o <;> simp only [readyCondition] <;>
    (try split_ifs) <;> simp_all

/-- C6: when the precondition check finds the workload absent from the
initial listed snapshot, waitFor returns a nil error immediately, consuming
zero events from the watch stream. -/
theorem waitfor_absent_short_circuits (spec : Spec) (store : Store)
    (events : List Event) (conditionFunc : Event → Bool × Option Err)
    (h : store.get spec.PodSpec.Namespace spec.PodSpec.Name =
      Except.ok false) :
    waitFor spec store events conditionFunc = (none, 0) := by
  simp [waitFor, UntilWithSync, preconditionFunc, h]

/-- A snapshot store containing no objects at all, for witnesses. -/
def storeAbsent : Store := ⟨fun _ _ => Except.ok false⟩

/-- Witness for C6 at a concrete Spec, an empty store and a non-empty event
stream. -/
theorem waitfor_absent_short_circuits_witness :
    (storeAbsent.get specPlain.PodSpec.Namespace specPlain.PodSpec.Name =
      Except.ok false) ∧
    waitFor specPlain storeAbsent
      [⟨EventType.Added, RObject.pod "build-abc123" PodPhase.Running⟩]
      (readyCondition specPlain) = (none, 0) :=
  ⟨rfl, waitfor_absent_short_circuits specPlain storeAbsent
    [⟨EventType.Added, RObject.pod "build-abc123" PodPhase.Running⟩]
    (readyCondition specPlain) rfl⟩

/-- C7: start classifies the stream outcome — nil gives
State{Exited: true, ExitCode: 0, OOMKilled: false} and a nil error; a
structured exit-status error gives Exited true, ExitCode the extracted
status, OOMKilled false and a nil error; any other error gives a nil State
and the raw error. -/
theorem start_classifies_stream_outcome (status : Int) (err : Err) :
    (start none StreamOutcome.ok).2 =
      (some { Exited := true, ExitCode := 0, OOMKilled := false }, none) ∧
    (start none (StreamOutcome.codeExit status)).2 =
      (some { Exited := true, ExitCode := status, OOMKilled := false },
        none) ∧
    (start none (StreamOutcome.failure err)).2 = (none, some err) :=
  ⟨rfl, rfl, rfl⟩

/-- C8 counterexample: start has an exit path with no flush — when
`remotecommand.NewSPDYExecutor` fails, the error is returned before either
sink is flushed. -/
theorem start_no_flush_on_executor_error :
    (start (some ⟨"no spdy"⟩) StreamOutcome.ok).2.2 = some ⟨"no spdy"⟩ ∧
    StartEffect.flushStdout ∉
      (start (some ⟨"no spdy"⟩) StreamOutcome.ok).1 ∧
    StartEffect.flushStderr ∉
      (start (some ⟨"no spdy"⟩) StreamOutcome.ok).1 := by
  decide

/-- C8 amended: on every exit path that reaches the stream call — normal
return, structured exit status, or propagated stream error — both sinks are
flushed before start returns; on the earlier executor-creation failure path
start returns the error without flushing (no stream output exists there). -/
theorem start_flushes_after_stream (outcome : StreamOutcome) (err : Err) :
    (StartEffect.flushStdout ∈ (start none outcome).1 ∧
      StartEffect.flushStderr ∈ (start none outcome).1) ∧
    start (some err) outcome = ([], (none, some err)) := by
  cases outcome <;> simp [start]

/-- C9: Run returns a nil State and the wait error, without invoking the
stream, whenever waitForReady fails; the stream is only ever invoked when
the wait returned nil. -/
theorem run_gates_start_on_ready (waitErr spdyErr : Option Err)
    (outcome : StreamOutcome) :
    (∀ err, waitErr = some err →
      Run waitErr spdyErr outcome = ([], (none, some err))) ∧
    (StartEffect.stream ∈ (Run waitErr spdyErr outcome).1 →
      waitErr = none) := by
  constructor
  · rintro err rfl
    rfl
  · cases waitErr with
    | none => intro _; rfl
    | some e =>
      intro hmem
      simp [Run] at hmem

/-- Witness for C9: a failed wait yields the wait error and no effects; a
concrete run whose trace contains the stream call has a nil wait error. -/
theorem run_gates_start_on_ready_witness :
    (Run (some ⟨"wait failed"⟩) none StreamOutcome.ok =
      ([], (none, some ⟨"wait failed"⟩))) ∧
    (none : Option Err) = none :=
  ⟨(run_gates_start_on_ready (some ⟨"wait failed"⟩) none
      StreamOutcome.ok).1 ⟨"wait failed"⟩ rfl,
    (run_gates_start_on_ready none none StreamOutcome.ok).2 (by decide)⟩

/-- C10: Run returns exactly one of a non-nil State or a non-nil error: the
State is present iff the error is nil. -/
theorem run_state_xor_error (waitErr spdyErr : Option Err)
    (outcome : StreamOutcome) :
    (Run waitErr spdyErr outcome).2.1.isSome = true ↔
      (Run waitErr spdyErr outcome).2.2 = none := by
  cases waitErr <;> cases spdyErr <;> cases outcome <;> simp [Run, start]

end Engine
